import Mathlib

/-
Verification development for the Abagio game engine (Python sources:
timer.py, gamepieces.py, game.py).  Each Python class is embedded as a Lean
structure and each method under scrutiny as a pure function on it; mutation
becomes explicit state passing, Python exceptions become `Except` results
(carrying the exception message), and `random.choice` becomes an explicit
oracle argument constrained by a hypothesis.  Machine reals (Python floats)
are embedded as exact rationals; the single use of `** 0.5` is embedded by
`ratSqrt`, an exact square root on rationals whose reduced numerator and
denominator are perfect squares (which holds at every use the theorems
evaluate).
-/

namespace Abagio

/-- Embedding of timer.py `Timer`: `done_time` is `-1` when the timer is
stopped or was never started. -/
structure Timer where
  done_time : Int
deriving Repr, DecidableEq

/-- Embedding of `Timer.start(time_to_wait, start_time)`. -/
def Timer.start (_t : Timer) (time_to_wait : Int) (start_time : Int) : Timer :=
  ⟨start_time + time_to_wait⟩

/-- Embedding of `Timer.is_done(current_time)`: done iff started and the
current time reached `done_time`. -/
def Timer.is_done (t : Timer) (current_time : Int) : Bool :=
  t.done_time != -1 && t.done_time ≤ current_time

/-- Embedding of `Timer.stop()`. -/
def Timer.stop (_t : Timer) : Timer := ⟨-1⟩

/-- Embedding of gamepieces.py `Die`. -/
structure Die where
  state : Nat
  speed : Int
  timer : Timer
  use_count : Nat
deriving Repr, DecidableEq

/-- Embedding of Python `list.remove`: drop the first occurrence of `a`.
(Python raises `ValueError` when `a` is absent; every use below has the
element present, so the total function is an adequate embedding.) -/
def removeFirst : List Nat → Nat → List Nat
  | [], _ => []
  | x :: xs, a => if x = a then xs else x :: removeFirst xs a

/-- The list `possible_states` built by `Die._update_state`:
`[1, 2, 3, 4, 5, 6]` with the current state removed. -/
def Die.possible_states (d : Die) : List Nat :=
  removeFirst [1, 2, 3, 4, 5, 6] d.state

/-- Embedding of `Die._update_state`, with the result of
`random.choice(possible_states)` passed as the oracle `pick`. -/
def Die.update_state (d : Die) (pick : Nat) : Die :=
  {d with state := pick}

/-- Embedding of `Die.start_roll` (oracle `pick`, clock reading `now`). -/
def Die.start_roll (d : Die) (pick : Nat) (now : Int) : Die :=
  let d := d.update_state pick
  {d with timer := d.timer.start d.speed now}

/-- Embedding of `Die.update` (oracle `pick`, clock reading `now`). -/
def Die.update (d : Die) (pick : Nat) (now : Int) : Die :=
  if d.timer.is_done now then d.start_roll pick now else d

/-- Embedding of `Die.stop_roll`. -/
def Die.stop_roll (d : Die) : Die :=
  {d with timer := d.timer.stop}

/-- The view of a `Frog` that a `Space` stack stores: its Python object
identity (`id`), its color, and its `render_priority_offset` field. -/
structure FrogPiece where
  id : Nat
  color : String
  render_priority_offset : Int
deriving Repr, DecidableEq

/-- Embedding of gamepieces.py `Space`: `stack` is `_frogs`, listed bottom
to top with no gaps. -/
structure Space where
  name : String
  capacity : Nat
  x : ℚ
  y : ℚ
  stack : List FrogPiece
deriving Repr, DecidableEq

/-- Embedding of `Space.add`: append on top, or raise `RuntimeError` when
already at capacity; returns the layer the frog was added at. -/
def Space.add (s : Space) (frog : FrogPiece) : Except String (Space × Nat) :=
  let layer := s.stack.length
  if s.capacity ≤ layer then
    .error "a new frog cannot be added to the stack - it is already full"
  else
    .ok ({s with stack := s.stack ++ [frog]}, layer)

/-- Embedding of `Space.lowest_empty_layer`. -/
def Space.lowest_empty_layer (s : Space) : Option Nat :=
  if s.capacity ≤ s.stack.length then none else some s.stack.length

/-- Embedding of `Space.is_on_top`: the stack is non-empty and `_frogs[-1]`
is the given frog (Python identity `is`, embedded by `id`).  The non-empty
test is folded into the `getLast?` match. -/
def Space.is_on_top (s : Space) (fid : Nat) : Bool :=
  match s.stack.getLast? with
  | some f => f.id == fid
  | none => false

/-- Embedding of `Space.pop_verify`: raise `RuntimeError` unless the given
frog is on top, else pop it. -/
def Space.pop_verify (s : Space) (fid : Nat) : Except String Space :=
  if s.is_on_top fid then .ok {s with stack := s.stack.dropLast}
  else .error "the specified frog is not at the top of the stack"

/-- Embedding of `Space.can_legally_take`.  The Python negative indices
`_frogs[-1]`, `_frogs[-2]`, `_frogs[-3]` (guarded by `len >= 3`) are read
off the reversed stack. -/
def Space.can_legally_take (s : Space) (frog : FrogPiece) : Bool :=
  match s.stack.reverse with
  | highest :: second :: third :: _ =>
    if highest.color != frog.color && highest.color == second.color
        && highest.color == third.color then
      false
    else
      decide (s.stack.length < s.capacity)
  | _ => decide (s.stack.length < s.capacity)

/-- Embedding of `Space.send_frogs_home`.  The Python negative indices are
read off the reversed stack; the call `send_home_frog.send_home()` is
embedded as the returned `Option FrogPiece` event (the captured frog as it
is at call time, its offset already set to 50), since the captured frog is
a second moving piece whose onward motion belongs to its own state. -/
def Space.send_frogs_home (s : Space) : Space × Option FrogPiece :=
  match s.stack.reverse with
  | highest :: send_home_frog :: rest =>
    let sending_frog_home :=
      match rest with
      | third :: _ =>
        highest.color != send_home_frog.color
          && send_home_frog.color != third.color
      | [] => highest.color != send_home_frog.color
    if sending_frog_home then
      ({s with stack :=
          ({highest with render_priority_offset := 51} ::
            {send_home_frog with render_priority_offset := 50} ::
            rest.map (fun f => {f with render_priority_offset := 50})).reverse},
        some {send_home_frog with render_priority_offset := 50})
    else
      (s, none)
  | _ => (s, none)

/-- Exact square root on rationals, embedding the Python float computation
`q ** 0.5`.  Exact whenever the reduced numerator and denominator of `q`
are perfect squares, which holds at every use the theorems evaluate. -/
def ratSqrt (q : ℚ) : ℚ :=
  (Nat.sqrt q.num.toNat : ℚ) / (Nat.sqrt q.den : ℚ)

/-- `Frog.PIXELS_PER_MS`. -/
def PIXELS_PER_MS : ℚ := 0.2

/-- `Frog._LAYER_SPACING`. -/
def LAYER_SPACING : ℚ := 10

/-- Embedding of gamepieces.py `Frog` (the kinematic and bookkeeping state
of the one frog whose motion a theorem follows; the code itself assumes no
other frog moves at the same time).  Spaces are referred to by name, which
identifies them uniquely on the board. -/
structure Frog where
  id : Nat
  color : String
  x : ℚ
  y : ℚ
  x_target : ℚ
  y_target : ℚ
  x_move : ℚ
  y_move : ℚ
  layer : Nat
  space : String
  target_space : Option String
  stepwise_movement : Bool
  is_being_sent_home : Bool
  x_offset : ℚ
  y_offset : ℚ
  render_priority_offset : Int
deriving Repr, DecidableEq

/-- The `FrogPiece` view of a `Frog`, as stored in space stacks. -/
def Frog.piece (f : Frog) : FrogPiece :=
  ⟨f.id, f.color, f.render_priority_offset⟩

/-- Embedding of `Frog.is_moving`. -/
def Frog.is_moving (f : Frog) : Bool :=
  f.x != f.x_target || f.y != f.y_target

/-- Embedding of `Frog._direct_coords_move`. -/
def Frog.direct_coords_move (f : Frog) (xt yt : ℚ) : Frog :=
  let f := {f with x_target := xt, y_target := yt}
  if f.x_target - f.x = 0 then
    {f with x_move := 0,
            y_move := if f.y ≤ f.y_target then PIXELS_PER_MS else -PIXELS_PER_MS}
  else
    let r := (f.y_target - f.y) / (f.x_target - f.x)
    let xm := ratSqrt ((PIXELS_PER_MS * PIXELS_PER_MS) / (1 + r * r))
    let ym := |r * xm|
    let xm := if f.x_target < f.x then -xm else xm
    let ym := if f.y_target < f.y then -ym else ym
    {f with x_move := xm, y_move := ym}

/-- The board-and-frog state threaded through the movement methods: the
spaces of the board, the frog being moved, and that frog's `_path` (as
space names). -/
structure World where
  spaces : List Space
  frog : Frog
  path : List String
deriving Repr, DecidableEq

/-- Look a space up by name (Python holds direct object references; the
model keys them by their unique name, and a failed lookup is a modelling
artifact that cannot occur on a well-formed world). -/
def World.find_space (w : World) (name : String) : Except String Space :=
  match w.spaces.find? (fun s => s.name == name) with
  | some s => .ok s
  | none => .error "model: unknown space"

/-- Write back a mutated space (keyed by its name). -/
def World.set_space (w : World) (sp : Space) : World :=
  {w with spaces := w.spaces.map (fun s => if s.name == sp.name then sp else s)}

/-- Embedding of `Frog._increment_space`: the space `increment` places past
`current` on the path, `none` when past the end.  `path.index` raising
`ValueError` when `current` is absent becomes the error case. -/
def World.increment_space (w : World) (increment : Nat) (current : String) :
    Except String (Option String) :=
  match w.path.indexOf? current with
  | none => .error "model: current space is not in the path"
  | some i =>
    if h : i + increment < w.path.length then
      .ok (some (w.path.get ⟨i + increment, h⟩))
    else
      .ok none

/-- Second half of `Frog.direct_space_move`, after the frog has left its
old space: look up the target space, take its lowest empty layer and
insert (or take the transient layer `capacity` without inserting when the
target is full), and arm the interpolation toward the new on-screen
coordinates. -/
def World.dsm_arrive (w1 : World) (space : String) : Except String World :=
  match w1.find_space space with
  | .error e => .error e
  | .ok tgt =>
    match tgt.lowest_empty_layer with
    | none =>
      let f := {w1.frog with space := space, layer := tgt.capacity}
      let cx := tgt.x + f.x_offset
      let cy := tgt.y + f.y_offset - (tgt.capacity : ℚ) * LAYER_SPACING
      .ok {w1 with frog := f.direct_coords_move cx cy}
    | some l =>
      match tgt.add w1.frog.piece with
      | .error e => .error e
      | .ok (tgt2, _) =>
        let w2 := w1.set_space tgt2
        let f := {w2.frog with space := space, layer := l}
        let cx := tgt2.x + f.x_offset
        let cy := tgt2.y + f.y_offset - (l : ℚ) * LAYER_SPACING
        .ok {w2 with frog := f.direct_coords_move cx cy}

/-- Embedding of `Frog.direct_space_move`: pop from the current space
unless in a transient layer (raising `StackOrderViolation` if not on top),
then hand over to `dsm_arrive` for the insertion at the target space. -/
def World.direct_space_move (w : World) (space : String) : Except String World :=
  match w.find_space w.frog.space with
  | .error e => .error e
  | .ok cur =>
    match (if w.frog.layer < cur.capacity then
            (cur.pop_verify w.frog.id).map w.set_space
          else .ok w : Except String World) with
    | .error e => .error e
    | .ok w1 => w1.dsm_arrive space

/-- Embedding of `Frog.stepwise_move`.  Python raises propagate after the
mutations already applied; the error case therefore carries the state at
raise time alongside the message. -/
def World.stepwise_move (w : World) (spaces_to_move : Nat) :
    Except (String × World) World :=
  match w.increment_space spaces_to_move w.frog.space with
  | .error e => .error (e, w)
  | .ok tgt =>
    let w := {w with frog := {w.frog with target_space := tgt}}
    match tgt with
    | none =>
      .error ("the provided spaces_to_move value would bring the frog out of bounds", w)
    | some _ =>
      let w := {w with frog := {w.frog with stepwise_movement := true}}
      match w.increment_space 1 w.frog.space with
      | .error e => .error (e, w)
      | .ok none => .error ("model: no next space on the path", w)
      | .ok (some nxt) =>
        match w.direct_space_move nxt with
        | .error e => .error (e, w)
        | .ok w2 => .ok w2

/-- The board-wide render-priority-offset reset performed when a sent-home
frog reaches the root (`for frog in self._board.frogs: ... = 0`). -/
def World.reset_offsets (w : World) : World :=
  {w with
    spaces := w.spaces.map (fun s =>
      {s with stack := s.stack.map (fun f => {f with render_priority_offset := 0})}),
    frog := {w.frog with render_priority_offset := 0}}

/-- The per-axis clamp of `Frog.update_coords`: advance by `move * dt` but
never past the target; the flag reports arrival on that axis. -/
def clamp_axis (pos move target dt : ℚ) : ℚ × Bool :=
  let move_dt := move * dt
  if 0 ≤ move_dt then
    if target ≤ pos + move_dt then (target, true) else (pos + move_dt, false)
  else
    if pos + move_dt ≤ target then (target, true) else (pos + move_dt, false)

/-- Embedding of `Frog.update_coords`: clamp both axes, then on arrival
complete a send-home (re-insert at the root, reset every offset on the
board) and/or continue or finish a stepwise movement (finishing invokes
`send_frogs_home` on the destination space). -/
def World.update_coords (w : World) (dt : ℚ) : Except String World :=
  let xr := clamp_axis w.frog.x w.frog.x_move w.frog.x_target dt
  let yr := clamp_axis w.frog.y w.frog.y_move w.frog.y_target dt
  let w1 := {w with frog := {w.frog with x := xr.1, y := yr.1}}
  if xr.2 && yr.2 then
    match (if w1.frog.is_being_sent_home then
            match w1.frog.target_space with
            | none => .error "model: sent home with no target space"
            | some ts =>
              match w1.find_space ts with
              | .error e => .error e
              | .ok sp =>
                match sp.add w1.frog.piece with
                | .error e => .error e
                | .ok (sp2, layer) =>
                  let wa := w1.set_space sp2
                  let wb := {wa with frog := {wa.frog with
                    is_being_sent_home := false, space := ts, layer := layer}}
                  .ok wb.reset_offsets
          else .ok w1 : Except String World) with
    | .error e => .error e
    | .ok w2 =>
      if w2.frog.stepwise_movement then
        if some w2.frog.space = w2.frog.target_space then
          match w2.find_space w2.frog.space with
          | .error e => .error e
          | .ok sp =>
            let w3 := w2.set_space (sp.send_frogs_home).1
            .ok {w3 with frog := {w3.frog with stepwise_movement := false}}
        else
          match w2.increment_space 1 w2.frog.space with
          | .error e => .error e
          | .ok none => .error "model: no next space on the path"
          | .ok (some nxt) => w2.direct_space_move nxt
      else .ok w2
  else .ok w1

/-- Feed a sequence of `dt` values to `update_coords`, as the per-frame
render loop does. -/
def World.run_updates (w : World) : List ℚ → Except String World
  | [] => .ok w
  | dt :: rest =>
    match w.update_coords dt with
    | .error e => .error e
    | .ok w2 => w2.run_updates rest

/-- Embedding of game.py `State`. -/
inductive State where
  | SETUP
  | SETUP_TIE
  | SETUP_WAITING
  | MAIN_GAME
deriving Repr, DecidableEq

/-- Embedding of game.py `TurnStage`. -/
inductive TurnStage where
  | ROLL
  | MOVE
deriving Repr, DecidableEq

/-- Embedding of game.py `RollState`. -/
inductive RollState where
  | BEFORE_ROLL
  | DURING_ROLL
  | AFTER_ROLL
deriving Repr, DecidableEq

/-- Embedding of game.py `MoveState`. -/
inductive MoveState where
  | BEFORE_DIE
  | BEFORE_FROG
  | BEFORE_FROG_ERROR
  | DURING_FROG_MOVEMENT
deriving Repr, DecidableEq

/-- The slice of game.py `Game` state the verified handlers read and
write: the four state enums, the rolling player, the two dice, the
recorded setup rolls (`_rolls`), the setup timer, the doubles flag, the
first-roll flag, and the `is_moving()` flags of the frogs in `_frogs`. -/
structure Game where
  state : State
  turn_stage : TurnStage
  roll_state : RollState
  move_state : MoveState
  rolling_player : String
  has_rolled_before : Bool
  doubles : Bool
  die1 : Die
  die2 : Die
  rolls_red : Option Nat
  rolls_purple : Option Nat
  setup_timer : Timer
  frogs_moving : List Bool
deriving Repr, DecidableEq

/-- Embedding of the `State.SETUP_TIE` branch of `Game._handle_mouse_up`:
`ok_hit` is whether the OK button exists and the click collides with it. -/
def Game.handle_mouse_up_setup_tie (g : Game) (ok_hit : Bool) : Game :=
  if ok_hit then
    {g with rolling_player := "red", roll_state := RollState.BEFORE_ROLL,
            state := State.SETUP}
  else
    g

/-- The tail spaces of the red home stretch in `Game._add_frogs`. -/
def red_final_space_names : List String :=
  ["20r", "21r", "22r", "23r", "24r", "25r", "26", "er"]

/-- The tail spaces of the purple home stretch in `Game._add_frogs`. -/
def purple_final_space_names : List String :=
  ["20p", "21p", "22p", "23p", "24p", "25p", "26", "ep"]

/-- `first_player_path_space_names` as built by `Game._add_frogs`. -/
def first_player_path_space_names (first_player : String) : List String :=
  ["sw", "1", "2", "3", "4", "5", "6", "7", "8", "9", "10", "11",
   "12", "13", "14", "15", "16", "17", "18", "19"] ++
  (if first_player == "red" then red_final_space_names
   else purple_final_space_names)

/-- `second_player_path_space_names` as built by `Game._add_frogs`. -/
def second_player_path_space_names (first_player : String) : List String :=
  ["se", "1", "2", "3", "4", "5", "6", "7", "8", "9", "10", "11",
   "12", "13", "14", "15", "16", "17", "18", "19"] ++
  (if first_player == "red" then purple_final_space_names
   else red_final_space_names)

/-- The sequence of `Frog(color, starting_space_name, ...)` constructions
performed by `Game._add_frogs(first_player, second_player)`, in order, as
(color, starting space) pairs: the `range(6)` loop then the twelve single
appends. -/
def add_frogs_placements (first_player second_player : String) :
    List (String × String) :=
  (List.replicate 6 [(first_player, "sw"), (second_player, "se")]).flatten ++
  [(first_player, "5"), (second_player, "5"),
   (first_player, "5"), (second_player, "5"),
   (second_player, "10"), (first_player, "10"),
   (second_player, "10"), (first_player, "10"),
   (first_player, "15"), (second_player, "15"),
   (first_player, "15"), (second_player, "15")]

/-- Embedding of `Game._tick_setup_waiting` (state side only; drawing is
external).  Returns the new game state and the list of frog placements
made by `_add_frogs` (empty when the timer has not expired). -/
def Game.tick_setup_waiting (g : Game) (now : Int) :
    Game × List (String × String) :=
  if g.setup_timer.is_done now then
    ({g with setup_timer := g.setup_timer.stop,
             has_rolled_before := false,
             state := State.MAIN_GAME,
             turn_stage := TurnStage.ROLL,
             roll_state := RollState.BEFORE_ROLL},
     if g.rolling_player == "red" then add_frogs_placements "red" "purple"
     else add_frogs_placements "purple" "red")
  else
    (g, [])

/-- Embedding of `Game._tick_main_game_roll` (state side only; the
`BEFORE_ROLL` and `DURING_ROLL` branches just draw the button). -/
def Game.tick_main_game_roll (g : Game) : Game :=
  match g.roll_state with
  | RollState.BEFORE_ROLL => g
  | RollState.DURING_ROLL => g
  | RollState.AFTER_ROLL =>
    {g with has_rolled_before := true,
            turn_stage := TurnStage.MOVE,
            move_state := MoveState.BEFORE_DIE,
            doubles := g.die1.state == g.die2.state}

/-- Embedding of `Game._tick_move_during_frog_movement`: return unchanged
while any frog is moving; then either end the turn (reset both use counts,
flip the player, back to ROLL/BEFORE_ROLL) when the die uses are spent, or
go back to BEFORE_DIE. -/
def Game.tick_move_during_frog_movement (g : Game) : Game :=
  if g.frogs_moving.any (fun b => b) then
    g
  else if g.die1.use_count + g.die2.use_count == 4
      || (!g.doubles && g.die1.use_count + g.die2.use_count == 2) then
    {g with die1 := {g.die1 with use_count := 0},
            die2 := {g.die2 with use_count := 0},
            turn_stage := TurnStage.ROLL,
            rolling_player := if g.rolling_player == "red" then "purple" else "red",
            roll_state := RollState.BEFORE_ROLL}
  else
    {g with move_state := MoveState.BEFORE_DIE}

lemma mem_of_mem_removeFirst {x a : Nat} :
    ∀ {l : List Nat}, x ∈ removeFirst l a → x ∈ l := by
  intro l
  induction l with
  | nil => simp [removeFirst]
  | cons y ys ih =>
    simp only [removeFirst]
    split
    · intro h
      exact List.mem_cons_of_mem _ h
    · intro h
      rcases List.mem_cons.mp h with h | h
      · exact h ▸ List.mem_cons_self _ _
      · exact List.mem_cons_of_mem _ (ih h)

lemma not_mem_removeFirst_of_nodup {a : Nat} :
    ∀ {l : List Nat}, l.Nodup → a ∉ removeFirst l a := by
  intro l
  induction l with
  | nil => simp [removeFirst]
  | cons y ys ih =>
    intro hnd
    simp only [removeFirst]
    split
    · next heq =>
      intro hmem
      rcases List.nodup_cons.mp hnd with ⟨hy, _⟩
      exact hy (heq ▸ hmem)
    · next hne =>
      intro hmem
      rcases List.mem_cons.mp hmem with h | h
      · exact hne h.symm
      · exact (ih (List.nodup_cons.mp hnd).2) h

/-- C8: every face change of a die — `start_roll` always, `update` exactly
when the roll timer is done — sets the face to the oracle pick, which lies
in `{1..6}` minus the current face (so consecutive faces of a rolling
sequence always differ); `update` while the timer is not done changes
nothing. -/
theorem die_face_change_spec (d : Die) (pick : Nat) (now : Int) :
    (pick ∈ d.possible_states →
      (d.start_roll pick now).state = pick ∧
      (d.start_roll pick now).state ∈ [1, 2, 3, 4, 5, 6] ∧
      (d.start_roll pick now).state ≠ d.state) ∧
    (d.timer.is_done now = true → d.update pick now = d.start_roll pick now) ∧
    (d.timer.is_done now = false → d.update pick now = d) := by
  refine ⟨fun hp => ⟨rfl, ?_, ?_⟩, fun h => ?_, fun h => ?_⟩
  · exact mem_of_mem_removeFirst hp
  · show pick ≠ d.state
    intro hcontra
    exact not_mem_removeFirst_of_nodup (by decide) (hcontra ▸ hp)
  · simp [Die.update, h]
  · simp [Die.update, h]

/-- Witness for `die_face_change_spec` at a die showing 3 with a stopped
timer, oracle pick 5, time 0. -/
theorem die_face_change_spec_witness :
    ((5 : Nat) ∈ (Die.mk 3 75 ⟨-1⟩ 0).possible_states) ∧
    ((Die.mk 3 75 ⟨-1⟩ 0).start_roll 5 0).state ≠ (Die.mk 3 75 ⟨-1⟩ 0).state ∧
    (Die.mk 3 75 ⟨-1⟩ 0).update 5 0 = Die.mk 3 75 ⟨-1⟩ 0 :=
  ⟨by decide, ((die_face_change_spec ⟨3, 75, ⟨-1⟩, 0⟩ 5 0).1 (by decide)).2.2,
    (die_face_change_spec ⟨3, 75, ⟨-1⟩, 0⟩ 5 0).2.2 (by decide)⟩

/-- C4: `can_legally_take` (a pure predicate in this embedding) returns
false at capacity; with a wall — top three frogs of one color different
from the queried frog's — it returns false for the opposing frog and, for
the matching frog, capacity is the only constraint; with fewer than three
frogs or mixed top colors, capacity is the only constraint. -/
theorem can_legally_take_spec :
    (∀ (s : Space) (f : FrogPiece), s.capacity ≤ s.stack.length →
      s.can_legally_take f = false) ∧
    (∀ (s : Space) (f : FrogPiece) (h1 h2 h3 : FrogPiece) (rest : List FrogPiece),
      s.stack.reverse = h1 :: h2 :: h3 :: rest →
      h1.color = h2.color → h2.color = h3.color →
      (h1.color ≠ f.color → s.can_legally_take f = false) ∧
      (h1.color = f.color →
        (s.can_legally_take f = true ↔ s.stack.length < s.capacity))) ∧
    (∀ (s : Space) (f : FrogPiece),
      (s.stack.length < 3 ∨
        ∀ (h1 h2 h3 : FrogPiece) (rest : List FrogPiece),
          s.stack.reverse = h1 :: h2 :: h3 :: rest →
          ¬(h1.color = h2.color ∧ h2.color = h3.color)) →
      (s.can_legally_take f = true ↔ s.stack.length < s.capacity)) := by
  refine ⟨fun s f hcap => ?_, fun s f h1 h2 h3 rest hr he12 he23 => ⟨fun hne => ?_, fun heq => ?_⟩,
    fun s f hmix => ?_⟩
  · rcases hr : s.stack.reverse with _ | ⟨h1, _ | ⟨h2, _ | ⟨h3, rest⟩⟩⟩ <;>
      simp only [Space.can_legally_take, hr] <;>
      try (simp only [decide_eq_false_iff_not]; omega)
    split
    · rfl
    · simp only [decide_eq_false_iff_not]
      omega
  · have hcond : (h1.color != f.color && (h1.color == h2.color)
        && (h1.color == h3.color)) = true := by
      simp only [Bool.and_eq_true, bne_iff_ne, beq_iff_eq]
      exact ⟨⟨hne, he12⟩, he12.trans he23⟩
    simp [Space.can_legally_take, hr, hcond]
  · have hcond : (h1.color != f.color && (h1.color == h2.color)
        && (h1.color == h3.color)) = false := by
      simp [bne_iff_ne, beq_iff_eq, heq]
    simp [Space.can_legally_take, hr, hcond]
  · rcases hr : s.stack.reverse with _ | ⟨h1, _ | ⟨h2, _ | ⟨h3, rest⟩⟩⟩ <;>
      simp only [Space.can_legally_take, hr, decide_eq_true_eq] <;> try exact Iff.rfl
    rcases hmix with hlen | hmx
    · exfalso
      have hlr : s.stack.reverse.length = s.stack.length := List.length_reverse _
      rw [hr] at hlr
      simp only [List.length_cons] at hlr
      omega
    · have hn := hmx h1 h2 h3 rest hr
      have hcond : ¬((h1.color != f.color && (h1.color == h2.color)
          && (h1.color == h3.color)) = true) := by
        simp only [Bool.and_eq_true, bne_iff_ne, beq_iff_eq]
        rintro ⟨⟨_, h12⟩, h13⟩
        exact hn ⟨h12, h12.symm.trans h13⟩
      rw [if_neg hcond]
      simp

/-- Witness for `can_legally_take_spec`: a space of capacity 5 whose top
three frogs are purple over a red frog refuses a red frog and accepts a
purple frog. -/
theorem can_legally_take_spec_witness :
    (Space.mk "1" 5 0 0 [⟨1, "red", 0⟩, ⟨2, "purple", 0⟩, ⟨3, "purple", 0⟩,
        ⟨4, "purple", 0⟩]).can_legally_take ⟨9, "red", 0⟩ = false :=
  ((can_legally_take_spec.2.1
      (Space.mk "1" 5 0 0 [⟨1, "red", 0⟩, ⟨2, "purple", 0⟩, ⟨3, "purple", 0⟩,
        ⟨4, "purple", 0⟩]) ⟨9, "red", 0⟩
      ⟨4, "purple", 0⟩ ⟨3, "purple", 0⟩ ⟨2, "purple", 0⟩ [⟨1, "red", 0⟩]
      rfl rfl rfl).1) (by decide)

/-- C1: with at least two frogs stacked, `send_frogs_home` captures exactly
when the top color differs from the second-from-top color and (the height
is below 3 or the third-from-top color differs from the second-from-top
color); a capture sets offset 50 on every occupant, 51 on the top frog,
and invokes `send_home` on the second-from-top frog; otherwise nothing
changes. -/
theorem send_frogs_home_spec :
    (∀ (s : Space), s.stack.length < 2 → s.send_frogs_home = (s, none)) ∧
    (∀ (s : Space) (top second : FrogPiece) (rest : List FrogPiece),
      s.stack.reverse = top :: second :: rest →
      (((s.send_frogs_home).2.isSome = true) ↔
        (top.color ≠ second.color ∧
          (s.stack.length < 3 ∨
            ∃ third rest2, rest = third :: rest2 ∧ second.color ≠ third.color))) ∧
      ((s.send_frogs_home).2.isSome = true →
        s.send_frogs_home =
          ({s with stack :=
              ({top with render_priority_offset := 51} ::
                {second with render_priority_offset := 50} ::
                rest.map (fun f => {f with render_priority_offset := 50})).reverse},
            some {second with render_priority_offset := 50})) ∧
      ((s.send_frogs_home).2.isSome = false → s.send_frogs_home = (s, none))) := by
  constructor
  · intro s hlen
    rcases hr : s.stack.reverse with _ | ⟨a, _ | ⟨b, r⟩⟩
    · simp [Space.send_frogs_home, hr]
    · simp [Space.send_frogs_home, hr]
    · exfalso
      have hlr : s.stack.reverse.length = s.stack.length := List.length_reverse _
      rw [hr] at hlr
      simp only [List.length_cons] at hlr
      omega
  · intro s top second rest hr
    have hlr : s.stack.length = rest.length + 2 := by
      have h := List.length_reverse s.stack
      rw [hr] at h
      simp only [List.length_cons] at h
      omega
    cases rest with
    | nil =>
      by_cases hc : top.color = second.color
      · have heq : s.send_frogs_home = (s, none) := by
          have hcond : (top.color != second.color) = false := by
            simp [bne_iff_ne, hc]
          simp [Space.send_frogs_home, hr, hcond]
        refine ⟨?_, ?_, ?_⟩ <;> simp [heq]
        intro hcontra
        exact absurd hc hcontra
      · have heq : s.send_frogs_home =
            ({s with stack :=
                ({top with render_priority_offset := 51} ::
                  {second with render_priority_offset := 50} ::
                  ([] : List FrogPiece).map
                    (fun f => {f with render_priority_offset := 50})).reverse},
              some {second with render_priority_offset := 50}) := by
          have hcond : (top.color != second.color) = true := by
            simp [bne_iff_ne, hc]
          simp [Space.send_frogs_home, hr, hcond]
        refine ⟨?_, ?_, ?_⟩ <;> simp [heq]
        refine ⟨hc, ?_⟩
        simp only [List.length_nil] at hlr
        omega
    | cons third rest2 =>
      by_cases hc : top.color ≠ second.color ∧ second.color ≠ third.color
      · have heq : s.send_frogs_home =
            ({s with stack :=
                ({top with render_priority_offset := 51} ::
                  {second with render_priority_offset := 50} ::
                  (third :: rest2).map
                    (fun f => {f with render_priority_offset := 50})).reverse},
              some {second with render_priority_offset := 50}) := by
          have hcond : (top.color != second.color
              && (second.color != third.color)) = true := by
            simp [bne_iff_ne, hc.1, hc.2]
          simp [Space.send_frogs_home, hr, hcond]
        refine ⟨?_, ?_, ?_⟩ <;> simp [heq]
        exact ⟨hc.1, Or.inr hc.2⟩
      · have heq : s.send_frogs_home = (s, none) := by
          have hcond : (top.color != second.color
              && (second.color != third.color)) = false := by
            rcases not_and_or.mp hc with h | h <;>
              simp only [not_not] at h <;>
              simp [bne_iff_ne, h]
          simp [Space.send_frogs_home, hr, hcond]
        refine ⟨?_, ?_, ?_⟩ <;> simp [heq]
        intro h1
        rcases not_and_or.mp hc with h | h
        · exact absurd h1 h
        · exact ⟨by simp at hlr; omega, not_not.mp h⟩

/-- Witness for `send_frogs_home_spec`: a red frog under a just-landed
purple frog on a height-2 stack is captured; offsets become 51 (top) and
50 (captured). -/
theorem send_frogs_home_spec_witness :
    (Space.mk "1" 5 0 0 [⟨1, "red", 0⟩, ⟨2, "purple", 0⟩]).send_frogs_home =
      ({Space.mk "1" 5 0 0 [⟨1, "red", 0⟩, ⟨2, "purple", 0⟩] with stack :=
          ({(⟨2, "purple", 0⟩ : FrogPiece) with render_priority_offset := 51} ::
            {(⟨1, "red", 0⟩ : FrogPiece) with render_priority_offset := 50} ::
            ([] : List FrogPiece).map
              (fun f => {f with render_priority_offset := 50})).reverse},
        some {(⟨1, "red", 0⟩ : FrogPiece) with render_priority_offset := 50}) :=
  (send_frogs_home_spec.2 (Space.mk "1" 5 0 0 [⟨1, "red", 0⟩, ⟨2, "purple", 0⟩])
    ⟨2, "purple", 0⟩ ⟨1, "red", 0⟩ [] rfl).2.1 (by decide)

/-- C3 counterexample: in SETUP_TIE with both recorded rolls equal to 3,
clicking OK leaves both roll records in place (the claim says they are
cleared). -/
theorem setup_tie_ok_keeps_roll_records :
    ((Game.mk State.SETUP_TIE TurnStage.ROLL RollState.AFTER_ROLL
        MoveState.BEFORE_DIE "purple" true false ⟨3, 75, ⟨-1⟩, 0⟩
        ⟨1, 75, ⟨-1⟩, 0⟩ (some 3) (some 3) ⟨-1⟩
        []).handle_mouse_up_setup_tie true).rolls_red = some 3 ∧
    ((Game.mk State.SETUP_TIE TurnStage.ROLL RollState.AFTER_ROLL
        MoveState.BEFORE_DIE "purple" true false ⟨3, 75, ⟨-1⟩, 0⟩
        ⟨1, 75, ⟨-1⟩, 0⟩ (some 3) (some 3) ⟨-1⟩
        []).handle_mouse_up_setup_tie true).rolls_purple = some 3 := by
  constructor <;> rfl

/-- C3 (amended): clicking OK in SETUP_TIE sets the rolling player back to
the default first player ("red"), the roll state to BEFORE_ROLL, and the
overall state to SETUP; every other field — including both recorded setup
rolls — is left unchanged (the records are only overwritten by the next
rolls). -/
theorem setup_tie_ok_spec (g : Game) (h : g.state = State.SETUP_TIE) :
    g.handle_mouse_up_setup_tie true =
      {g with rolling_player := "red", roll_state := RollState.BEFORE_ROLL,
              state := State.SETUP} ∧
    (g.handle_mouse_up_setup_tie true).rolls_red = g.rolls_red ∧
    (g.handle_mouse_up_setup_tie true).rolls_purple = g.rolls_purple ∧
    g.handle_mouse_up_setup_tie false = g := by
  refine ⟨rfl, rfl, rfl, rfl⟩

/-- Witness for `setup_tie_ok_spec` at a concrete SETUP_TIE game. -/
theorem setup_tie_ok_spec_witness :
    (Game.mk State.SETUP_TIE TurnStage.ROLL RollState.AFTER_ROLL
        MoveState.BEFORE_DIE "purple" true false ⟨3, 75, ⟨-1⟩, 0⟩
        ⟨1, 75, ⟨-1⟩, 0⟩ (some 3) (some 3) ⟨-1⟩ []).handle_mouse_up_setup_tie
        true =
      Game.mk State.SETUP TurnStage.ROLL RollState.BEFORE_ROLL
        MoveState.BEFORE_DIE "red" true false ⟨3, 75, ⟨-1⟩, 0⟩
        ⟨1, 75, ⟨-1⟩, 0⟩ (some 3) (some 3) ⟨-1⟩ [] :=
  (setup_tie_ok_spec (Game.mk State.SETUP_TIE TurnStage.ROLL
      RollState.AFTER_ROLL MoveState.BEFORE_DIE "purple" true false
      ⟨3, 75, ⟨-1⟩, 0⟩ ⟨1, 75, ⟨-1⟩, 0⟩ (some 3) (some 3) ⟨-1⟩ []) rfl).1

/-- C2 counterexample: when the SETUP_WAITING timer expires, `_add_frogs`
creates 12 frogs per side (6 + 2 + 2 + 2), not 14 as the claim states. -/
theorem setup_waiting_places_twelve_per_side :
    ((Game.mk State.SETUP_WAITING TurnStage.ROLL RollState.BEFORE_ROLL
        MoveState.BEFORE_DIE "red" true false ⟨5, 75, ⟨-1⟩, 0⟩
        ⟨2, 75, ⟨-1⟩, 0⟩ (some 5) (some 2) ⟨500⟩ []).tick_setup_waiting
        1000).2.countP (fun p => p.1 == "red") = 12 ∧
    ((Game.mk State.SETUP_WAITING TurnStage.ROLL RollState.BEFORE_ROLL
        MoveState.BEFORE_DIE "red" true false ⟨5, 75, ⟨-1⟩, 0⟩
        ⟨2, 75, ⟨-1⟩, 0⟩ (some 5) (some 2) ⟨500⟩ []).tick_setup_waiting
        1000).2.countP (fun p => p.1 == "purple") = 12 ∧
    ¬(12 : Nat) = 14 := by
  refine ⟨by decide, by decide, by decide⟩

/-- C2 (amended): on SETUP_WAITING timer expiry the game places the
starting pieces — 12 per side, 24 in total: 6 on the first player's rest
space "sw", 6 on the second player's rest space "se", and 2 per side on
each of the path spaces "5", "10" and "15" — and transitions to
MAIN_GAME with turn stage ROLL and roll state BEFORE_ROLL. -/
theorem setup_waiting_spec (g : Game) (now : Int)
    (hs : g.state = State.SETUP_WAITING)
    (ht : g.setup_timer.is_done now = true) :
    ((g.tick_setup_waiting now).1.state = State.MAIN_GAME ∧
      (g.tick_setup_waiting now).1.turn_stage = TurnStage.ROLL ∧
      (g.tick_setup_waiting now).1.roll_state = RollState.BEFORE_ROLL ∧
      (g.tick_setup_waiting now).1.has_rolled_before = false) ∧
    ((g.tick_setup_waiting now).2 =
      if g.rolling_player == "red" then add_frogs_placements "red" "purple"
      else add_frogs_placements "purple" "red") ∧
    (∀ first second : String,
      (first = "red" ∧ second = "purple") ∨ (first = "purple" ∧ second = "red") →
      (add_frogs_placements first second).length = 24 ∧
      (add_frogs_placements first second).countP (fun p => p.1 == first) = 12 ∧
      (add_frogs_placements first second).countP (fun p => p.1 == second) = 12 ∧
      (add_frogs_placements first second).countP (fun p => p == (first, "sw")) = 6 ∧
      (add_frogs_placements first second).countP (fun p => p == (second, "se")) = 6 ∧
      (∀ sp ∈ ["5", "10", "15"],
        (add_frogs_placements first second).countP (fun p => p == (first, sp)) = 2 ∧
        (add_frogs_placements first second).countP (fun p => p == (second, sp)) = 2)) := by
  refine ⟨⟨?_, ?_, ?_, ?_⟩, ?_, ?_⟩
  · rw [Game.tick_setup_waiting, if_pos ht]
  · rw [Game.tick_setup_waiting, if_pos ht]
  · rw [Game.tick_setup_waiting, if_pos ht]
  · rw [Game.tick_setup_waiting, if_pos ht]
  · rw [Game.tick_setup_waiting, if_pos ht]
  · rintro first second (⟨h1, h2⟩ | ⟨h1, h2⟩) <;> subst h1 <;> subst h2 <;> decide

/-- Witness for `setup_waiting_spec` at a concrete expired SETUP_WAITING
game with purple to move first. -/
theorem setup_waiting_spec_witness :
    ((Game.mk State.SETUP_WAITING TurnStage.ROLL RollState.BEFORE_ROLL
        MoveState.BEFORE_DIE "purple" true false ⟨2, 75, ⟨-1⟩, 0⟩
        ⟨5, 75, ⟨-1⟩, 0⟩ (some 2) (some 5) ⟨500⟩ []).tick_setup_waiting
        1000).1.state = State.MAIN_GAME :=
  (setup_waiting_spec (Game.mk State.SETUP_WAITING TurnStage.ROLL
      RollState.BEFORE_ROLL MoveState.BEFORE_DIE "purple" true false
      ⟨2, 75, ⟨-1⟩, 0⟩ ⟨5, 75, ⟨-1⟩, 0⟩ (some 2) (some 5) ⟨500⟩ [])
    1000 rfl (by decide)).1.1

/-- C5: in DURING_FROG_MOVEMENT, once no frog is moving, the turn ends —
both use counts reset, player flipped, back to ROLL/BEFORE_ROLL — exactly
when the uses are exhausted (sum 2 without doubles, sum 4 with doubles,
each die being usable at most once, twice under doubles); otherwise the
game returns to BEFORE_DIE; while a frog moves nothing changes; and the
doubles flag is set by the AFTER_ROLL branch of the roll stage to whether
the two dice show equal faces. -/
theorem during_frog_movement_spec :
    (∀ g : Game,
      g.move_state = MoveState.DURING_FROG_MOVEMENT →
      g.frogs_moving.any (fun b => b) = false →
      (g.doubles = false → g.die1.use_count + g.die2.use_count ≤ 2) →
      (((if g.doubles = true then g.die1.use_count + g.die2.use_count = 4
            else g.die1.use_count + g.die2.use_count = 2) →
        g.tick_move_during_frog_movement =
          {g with die1 := {g.die1 with use_count := 0},
                  die2 := {g.die2 with use_count := 0},
                  turn_stage := TurnStage.ROLL,
                  rolling_player :=
                    if g.rolling_player == "red" then "purple" else "red",
                  roll_state := RollState.BEFORE_ROLL}) ∧
       (¬(if g.doubles = true then g.die1.use_count + g.die2.use_count = 4
            else g.die1.use_count + g.die2.use_count = 2) →
        g.tick_move_during_frog_movement =
          {g with move_state := MoveState.BEFORE_DIE}))) ∧
    (∀ g : Game, g.frogs_moving.any (fun b => b) = true →
      g.tick_move_during_frog_movement = g) ∧
    (∀ g : Game, g.roll_state = RollState.AFTER_ROLL →
      (g.tick_main_game_roll).doubles = (g.die1.state == g.die2.state) ∧
      (g.tick_main_game_roll).turn_stage = TurnStage.MOVE ∧
      (g.tick_main_game_roll).move_state = MoveState.BEFORE_DIE) := by
  refine ⟨fun g hms hmv hinv => ⟨fun hex => ?_, fun hex => ?_⟩,
    fun g hm => ?_, fun g hr => ?_⟩
  · have hcond : (g.die1.use_count + g.die2.use_count == 4
        || (!g.doubles && (g.die1.use_count + g.die2.use_count == 2))) = true := by
      cases hd : g.doubles <;> simp [hd] at hex <;> simp [hex]
    rw [Game.tick_move_during_frog_movement, if_neg (by simp [hmv]),
      if_pos hcond]
  · have hcond : (g.die1.use_count + g.die2.use_count == 4
        || (!g.doubles && (g.die1.use_count + g.die2.use_count == 2))) = false := by
      cases hd : g.doubles
      · simp only [hd, Bool.false_eq_true, if_false] at hex
        have hle := hinv hd
        simp only [hd, Bool.not_false, Bool.true_and, Bool.or_eq_false_iff,
          beq_eq_false_iff_ne]
        exact ⟨by omega, hex⟩
      · simp only [hd, if_true] at hex
        simp only [hd, Bool.not_true, Bool.false_and, Bool.or_false,
          beq_eq_false_iff_ne]
        exact hex
    rw [Game.tick_move_during_frog_movement, if_neg (by simp [hmv]),
      if_neg (by simp [hcond])]
  · rw [Game.tick_move_during_frog_movement, if_pos hm]
  · refine ⟨?_, ?_, ?_⟩ <;> simp [Game.tick_main_game_roll, hr]

/-- Witness for `during_frog_movement_spec`: a non-doubles turn with both
dice used once and no frog moving ends the turn and flips red to purple. -/
theorem during_frog_movement_spec_witness :
    (Game.mk State.MAIN_GAME TurnStage.MOVE RollState.BEFORE_ROLL
        MoveState.DURING_FROG_MOVEMENT "red" true false ⟨3, 75, ⟨-1⟩, 1⟩
        ⟨5, 75, ⟨-1⟩, 1⟩ none none ⟨-1⟩
        [false, false]).tick_move_during_frog_movement =
      Game.mk State.MAIN_GAME TurnStage.ROLL RollState.BEFORE_ROLL
        MoveState.DURING_FROG_MOVEMENT "purple" true false ⟨3, 75, ⟨-1⟩, 0⟩
        ⟨5, 75, ⟨-1⟩, 0⟩ none none ⟨-1⟩ [false, false] :=
  ((during_frog_movement_spec.1 (Game.mk State.MAIN_GAME TurnStage.MOVE
      RollState.BEFORE_ROLL MoveState.DURING_FROG_MOVEMENT "red" true false
      ⟨3, 75, ⟨-1⟩, 1⟩ ⟨5, 75, ⟨-1⟩, 1⟩ none none ⟨-1⟩ [false, false])
    rfl rfl (fun _ => by decide)).1 (by decide))

lemma find?_name_cons (name : String) (a : Space) (t : List Space) :
    (a :: t).find? (fun s => s.name == name) =
      if a.name == name then some a else t.find? (fun s => s.name == name) := by
  cases hb : (a.name == name) <;> simp [List.find?_cons, hb]

lemma find?_set_of_ne (sp : Space) (name : String) (h : ¬ name = sp.name) :
    ∀ l : List Space,
      ((l.map (fun s => if s.name == sp.name then sp else s)).find?
          (fun s => s.name == name)) = l.find? (fun s => s.name == name)
  | [] => rfl
  | a :: t => by
    rw [List.map_cons, find?_name_cons, find?_name_cons]
    by_cases ha : (a.name == sp.name) = true
    · have han : a.name = sp.name := beq_iff_eq.mp ha
      have h1 : ¬ ((if a.name == sp.name then sp else a).name == name) = true := by
        rw [if_pos ha]
        simp only [beq_iff_eq]
        exact fun hh => h hh.symm
      have h2 : ¬ (a.name == name) = true := by
        simp only [beq_iff_eq]
        rw [han]
        exact fun hh => h hh.symm
      rw [if_neg h1, if_neg h2]
      exact find?_set_of_ne sp name h t
    · have hfa : (if a.name == sp.name then sp else a) = a := if_neg ha
      rw [hfa]
      by_cases hb : (a.name == name) = true
      · rw [if_pos hb, if_pos hb]
      · rw [if_neg hb, if_neg hb]
        exact find?_set_of_ne sp name h t

lemma find?_set_isSome (sp : Space) (name : String) :
    ∀ l : List Space,
      ((l.map (fun s => if s.name == sp.name then sp else s)).find?
          (fun s => s.name == name)).isSome =
        (l.find? (fun s => s.name == name)).isSome
  | [] => rfl
  | a :: t => by
    rw [List.map_cons, find?_name_cons, find?_name_cons]
    by_cases ha : (a.name == sp.name) = true
    · have han : a.name = sp.name := beq_iff_eq.mp ha
      have hfa : (if a.name == sp.name then sp else a) = sp := if_pos ha
      rw [hfa]
      by_cases hb : (a.name == name) = true
      · rw [if_pos (show (sp.name == name) = true by rw [← han]; exact hb),
          if_pos hb]
        rfl
      · rw [if_neg (show ¬ (sp.name == name) = true by rw [← han]; exact hb),
          if_neg hb]
        exact find?_set_isSome sp name t
    · have hfa : (if a.name == sp.name then sp else a) = a := if_neg ha
      rw [hfa]
      by_cases hb : (a.name == name) = true
      · rw [if_pos hb, if_pos hb]
      · rw [if_neg hb, if_neg hb]
        exact find?_set_isSome sp name t

lemma find_space_set_space_of_ne (w : World) (sp : Space) (n : String)
    (h : ¬ n = sp.name) :
    (w.set_space sp).find_space n = w.find_space n := by
  simp only [World.find_space, World.set_space]
  rw [find?_set_of_ne sp n h w.spaces]

lemma find_space_set_space_isSome (w : World) (sp : Space) (n : String)
    (t : Space) (h : w.find_space n = .ok t) :
    ∃ t2, (w.set_space sp).find_space n = .ok t2 := by
  simp only [World.find_space, World.set_space] at h ⊢
  have hs : (w.spaces.find? (fun s => s.name == n)).isSome = true := by
    cases hf : w.spaces.find? (fun s => s.name == n) with
    | some s => rfl
    | none => rw [hf] at h; cases h
  have hs2 := find?_set_isSome sp n w.spaces
  rw [hs] at hs2
  cases hf2 : (w.spaces.map (fun s => if s.name == sp.name then sp
      else s)).find? (fun s => s.name == n) with
  | some s2 => exact ⟨s2, by simp [hf2]⟩
  | none => rw [hf2] at hs2; cases hs2

lemma find_space_error_msg {w : World} {n e : String}
    (h : w.find_space n = .error e) : e = "model: unknown space" := by
  simp only [World.find_space] at h
  cases hf : w.spaces.find? (fun s => s.name == n) with
  | some s => rw [hf] at h; cases h
  | none =>
    rw [hf] at h
    exact (Except.error.inj h).symm

lemma find_space_name {w : World} {n : String} {s : Space}
    (h : w.find_space n = .ok s) : s.name = n := by
  simp only [World.find_space] at h
  cases hf : w.spaces.find? (fun s => s.name == n) with
  | some s2 =>
    rw [hf] at h
    have hp := List.find?_some hf
    have hs2 : s2 = s := Except.ok.inj h
    rw [← hs2]
    exact beq_iff_eq.mp hp
  | none => rw [hf] at h; cases h

lemma add_error_msg {s : Space} {f : FrogPiece} {e : String}
    (h : s.add f = .error e) :
    e = "a new frog cannot be added to the stack - it is already full" := by
  simp only [Space.add] at h
  split at h
  · exact (Except.error.inj h).symm
  · cases h

lemma direct_coords_move_layer (f : Frog) (xt yt : ℚ) :
    (f.direct_coords_move xt yt).layer = f.layer := by
  simp only [Frog.direct_coords_move]
  split <;> rfl

lemma direct_coords_move_space (f : Frog) (xt yt : ℚ) :
    (f.direct_coords_move xt yt).space = f.space := by
  simp only [Frog.direct_coords_move]
  split <;> rfl

lemma dsm_arrive_ne_stack_order (w1 : World) (target : String) :
    w1.dsm_arrive target ≠
      Except.error "the specified frog is not at the top of the stack" := by
  cases hf : w1.find_space target with
  | error e =>
    have hv : w1.dsm_arrive target = .error e := by
      simp only [World.dsm_arrive, hf]
    rw [hv]
    have he := find_space_error_msg hf
    subst he
    intro h
    exact absurd (Except.error.inj h) (by decide)
  | ok tgt =>
    cases hl : tgt.lowest_empty_layer with
    | none =>
      have hv : ∃ w2, w1.dsm_arrive target = .ok w2 := by
        simp only [World.dsm_arrive, hf, hl]
        exact ⟨_, rfl⟩
      obtain ⟨w2, hv⟩ := hv
      rw [hv]
      intro h
      cases h
    | some l =>
      cases ha : tgt.add w1.frog.piece with
      | error e =>
        have hv : w1.dsm_arrive target = .error e := by
          simp only [World.dsm_arrive, hf, hl, ha]
        rw [hv]
        have he := add_error_msg ha
        subst he
        intro h
        exact absurd (Except.error.inj h) (by decide)
      | ok p =>
        obtain ⟨tgt2, l2⟩ := p
        have hv : ∃ w2, w1.dsm_arrive target = .ok w2 := by
          simp only [World.dsm_arrive, hf, hl, ha]
          exact ⟨_, rfl⟩
        obtain ⟨w2, hv⟩ := hv
        rw [hv]
        intro h
        cases h

lemma dsm_arrive_ok (w1 : World) (target : String) (tgt : Space)
    (hf : w1.find_space target = .ok tgt) :
    ∃ w2, w1.dsm_arrive target = .ok w2 := by
  simp only [World.dsm_arrive, hf]
  cases hl : tgt.lowest_empty_layer with
  | none => exact ⟨_, rfl⟩
  | some l =>
    have hlen : ¬ tgt.capacity ≤ tgt.stack.length := by
      simp only [Space.lowest_empty_layer] at hl
      split at hl
      · cases hl
      · next hcc => exact hcc
    have ha : tgt.add w1.frog.piece =
        .ok ({tgt with stack := tgt.stack ++ [w1.frog.piece]},
          tgt.stack.length) := by
      simp only [Space.add]
      rw [if_neg hlen]
    rw [ha]
    exact ⟨_, rfl⟩

/-- C9: `direct_space_move` raises `StackOrderViolation` (the Python
`RuntimeError` of `pop_verify`) exactly when the frog is below its
current space's capacity (not in the transient layer) yet not on top of
that space's stack; with the frog on top or transient, and the target
space present, the move succeeds. -/
theorem direct_space_move_error_iff :
    (∀ (w : World) (target : String) (cur : Space),
      w.find_space w.frog.space = .ok cur →
      (w.direct_space_move target =
          .error "the specified frog is not at the top of the stack" ↔
        (w.frog.layer < cur.capacity ∧ cur.is_on_top w.frog.id = false))) ∧
    (∀ (w : World) (target : String) (cur tgt : Space),
      w.find_space w.frog.space = .ok cur →
      w.find_space target = .ok tgt →
      (cur.capacity ≤ w.frog.layer ∨ cur.is_on_top w.frog.id = true) →
      ∃ w2, w.direct_space_move target = .ok w2) := by
  constructor
  · intro w target cur hc
    simp only [World.direct_space_move, hc]
    by_cases hl : w.frog.layer < cur.capacity
    · rw [if_pos hl]
      by_cases ht : cur.is_on_top w.frog.id = true
      · have hpop : cur.pop_verify w.frog.id =
            .ok {cur with stack := cur.stack.dropLast} := by
          simp only [Space.pop_verify]
          rw [if_pos ht]
        rw [hpop]
        simp only [Except.map]
        constructor
        · intro h
          exact absurd h (dsm_arrive_ne_stack_order _ _)
        · rintro ⟨_, hf⟩
          rw [ht] at hf
          cases hf
      · have ht2 : cur.is_on_top w.frog.id = false := by
          cases hcc : cur.is_on_top w.frog.id
          · rfl
          · exact absurd hcc ht
        have hpop : cur.pop_verify w.frog.id =
            .error "the specified frog is not at the top of the stack" := by
          simp only [Space.pop_verify]
          rw [if_neg ht]
        rw [hpop]
        simp only [Except.map]
        constructor
        · intro _
          exact ⟨hl, ht2⟩
        · intro _
          first
          | rfl
          | trivial
    · rw [if_neg hl]
      constructor
      · intro h
        exact absurd h (dsm_arrive_ne_stack_order _ _)
      · rintro ⟨hcontra, _⟩
        exact absurd hcontra hl
  · intro w target cur tgt hc htg hpre
    simp only [World.direct_space_move, hc]
    by_cases hl : w.frog.layer < cur.capacity
    · rcases hpre with hcap | ht
      · omega
      · rw [if_pos hl]
        have hpop : cur.pop_verify w.frog.id =
            .ok {cur with stack := cur.stack.dropLast} := by
          simp only [Space.pop_verify]
          rw [if_pos ht]
        rw [hpop]
        simp only [Except.map]
        obtain ⟨t2, ht2⟩ := find_space_set_space_isSome w
          {cur with stack := cur.stack.dropLast} target tgt htg
        exact dsm_arrive_ok _ target t2 ht2
    · rw [if_neg hl]
      exact dsm_arrive_ok _ target tgt htg

/-- Witness for `direct_space_move_error_iff`: a frog that is not on top
of its two-frog stack triggers the stack-order error when moved. -/
theorem direct_space_move_error_iff_witness :
    (World.mk
      [Space.mk "a" 5 0 0 [⟨1, "red", 0⟩, ⟨2, "purple", 0⟩],
        Space.mk "b" 5 50 0 []]
      (Frog.mk 1 "red" 0 0 0 0 0 0 0 "a" (some "a") false false 0 0 0)
      ["a", "b"]).direct_space_move "b" =
      Except.error "the specified frog is not at the top of the stack" :=
  ((direct_space_move_error_iff.1 (World.mk
      [Space.mk "a" 5 0 0 [⟨1, "red", 0⟩, ⟨2, "purple", 0⟩],
        Space.mk "b" 5 50 0 []]
      (Frog.mk 1 "red" 0 0 0 0 0 0 0 "a" (some "a") false false 0 0 0)
      ["a", "b"]) "b"
      (Space.mk "a" 5 0 0 [⟨1, "red", 0⟩, ⟨2, "purple", 0⟩]) rfl).mpr
    (by decide))

lemma find_space_congr {w2 w1 : World} (h : w2.spaces = w1.spaces)
    (n : String) : w2.find_space n = w1.find_space n := by
  simp only [World.find_space, h]

lemma dsm_arrive_transient (w1 : World) (target : String) (tgt : Space)
    (hf : w1.find_space target = .ok tgt)
    (hfull : tgt.capacity ≤ tgt.stack.length) :
    ∃ w2, w1.dsm_arrive target = .ok w2 ∧ w2.frog.layer = tgt.capacity ∧
      w2.frog.space = target ∧ w2.spaces = w1.spaces := by
  have hl : tgt.lowest_empty_layer = none := by
    simp only [Space.lowest_empty_layer]
    rw [if_pos hfull]
  have hv : w1.dsm_arrive target = .ok
      {w1 with frog := (Frog.direct_coords_move
        {w1.frog with space := target, layer := tgt.capacity}
        (tgt.x + w1.frog.x_offset)
        (tgt.y + w1.frog.y_offset - (tgt.capacity : ℚ) * LAYER_SPACING))} := by
    simp only [World.dsm_arrive, hf, hl]
  refine ⟨_, hv, ?_, ?_, rfl⟩
  · rw [direct_coords_move_layer]
  · rw [direct_coords_move_space]

/-- C7: a space's stack length never exceeds its capacity — `Space.add`
raises instead of appending at capacity, and on success grows the stack by
one while staying within capacity; and `direct_space_move` to a full space
gives the frog the transient layer equal to the capacity without inserting
it into that space's stack. -/
theorem capacity_invariant_spec :
    (∀ (s : Space) (f : FrogPiece), s.capacity ≤ s.stack.length →
      s.add f =
        .error "a new frog cannot be added to the stack - it is already full") ∧
    (∀ (s : Space) (f : FrogPiece) (s2 : Space) (l : Nat),
      s.add f = .ok (s2, l) →
      s2.stack.length ≤ s2.capacity ∧ s2.stack.length = s.stack.length + 1 ∧
      l = s.stack.length) ∧
    (∀ (w : World) (target : String) (cur tgt : Space),
      w.find_space w.frog.space = .ok cur →
      (cur.capacity ≤ w.frog.layer ∨ cur.is_on_top w.frog.id = true) →
      ¬ target = w.frog.space →
      w.find_space target = .ok tgt →
      tgt.capacity ≤ tgt.stack.length →
      ∃ w2, w.direct_space_move target = .ok w2 ∧
        w2.frog.layer = tgt.capacity ∧ w2.frog.space = target ∧
        w2.find_space target = .ok tgt) := by
  refine ⟨fun s f hcap => ?_, fun s f s2 l hok => ?_,
    fun w target cur tgt hc hpre hne htg hfull => ?_⟩
  · simp only [Space.add]
    rw [if_pos hcap]
  · simp only [Space.add] at hok
    split at hok
    · cases hok
    · next hlt =>
      injection hok with h
      injection h with h1 h2
      subst h1
      subst h2
      refine ⟨?_, ?_, rfl⟩
      · show (s.stack ++ [f]).length ≤ s.capacity
        simp only [List.length_append, List.length_cons, List.length_nil]
        omega
      · show (s.stack ++ [f]).length = s.stack.length + 1
        simp only [List.length_append, List.length_cons, List.length_nil]
  · have hcn : cur.name = w.frog.space := find_space_name hc
    simp only [World.direct_space_move, hc]
    by_cases hl : w.frog.layer < cur.capacity
    · rcases hpre with hcap | ht
      · omega
      · rw [if_pos hl]
        have hpop : cur.pop_verify w.frog.id =
            .ok {cur with stack := cur.stack.dropLast} := by
          simp only [Space.pop_verify]
          rw [if_pos ht]
        rw [hpop]
        simp only [Except.map]
        have hW1 : (w.set_space
            {cur with stack := cur.stack.dropLast}).find_space target =
            .ok tgt := by
          rw [find_space_set_space_of_ne w
            {cur with stack := cur.stack.dropLast} target
            (show ¬ target = cur.name by rw [hcn]; exact hne)]
          exact htg
        obtain ⟨w2, hv, hly, hs2, hsp⟩ :=
          dsm_arrive_transient _ target tgt hW1 hfull
        exact ⟨w2, hv, hly, hs2, (find_space_congr hsp target).trans hW1⟩
    · rw [if_neg hl]
      obtain ⟨w2, hv, hly, hs2, hsp⟩ :=
        dsm_arrive_transient w target tgt htg hfull
      exact ⟨w2, hv, hly, hs2, (find_space_congr hsp target).trans htg⟩

/-- Witness for `capacity_invariant_spec`: moving the lone top frog of
space "a" onto the full 2-capacity space "b" leaves "b" unchanged and
parks the frog on transient layer 2. -/
theorem capacity_invariant_spec_witness :
    ∃ w2, (World.mk
        [Space.mk "a" 5 0 0 [⟨1, "red", 0⟩],
          Space.mk "b" 2 50 0 [⟨2, "purple", 0⟩, ⟨3, "purple", 0⟩]]
        (Frog.mk 1 "red" 0 0 0 0 0 0 0 "a" (some "b") true false 0 0 0)
        ["a", "b"]).direct_space_move "b" = .ok w2 ∧
      w2.frog.layer = (Space.mk "b" 2 50 0
        [⟨2, "purple", 0⟩, ⟨3, "purple", 0⟩]).capacity ∧
      w2.frog.space = "b" ∧
      w2.find_space "b" =
        .ok (Space.mk "b" 2 50 0 [⟨2, "purple", 0⟩, ⟨3, "purple", 0⟩]) :=
  capacity_invariant_spec.2.2 (World.mk
      [Space.mk "a" 5 0 0 [⟨1, "red", 0⟩],
        Space.mk "b" 2 50 0 [⟨2, "purple", 0⟩, ⟨3, "purple", 0⟩]]
      (Frog.mk 1 "red" 0 0 0 0 0 0 0 "a" (some "b") true false 0 0 0)
      ["a", "b"]) "b"
    (Space.mk "a" 5 0 0 [⟨1, "red", 0⟩])
    (Space.mk "b" 2 50 0 [⟨2, "purple", 0⟩, ⟨3, "purple", 0⟩])
    rfl (Or.inr (by decide)) (by decide) rfl (by decide)

lemma pop_verify_error_msg {s : Space} {fid : Nat} {e : String}
    (h : s.pop_verify fid = .error e) :
    e = "the specified frog is not at the top of the stack" := by
  simp only [Space.pop_verify] at h
  split at h
  · cases h
  · exact (Except.error.inj h).symm

lemma increment_space_error_msg {w : World} {inc : Nat} {cur e : String}
    (h : w.increment_space inc cur = .error e) :
    e = "model: current space is not in the path" := by
  cases hf : w.path.indexOf? cur with
  | none =>
    have hv : w.increment_space inc cur =
        .error "model: current space is not in the path" := by
      simp only [World.increment_space, hf]
    rw [hv] at h
    exact (Except.error.inj h).symm
  | some i =>
    by_cases hlt : i + inc < w.path.length
    · have hv : w.increment_space inc cur = .ok (some (w.path.get ⟨i + inc, hlt⟩)) := by
        simp only [World.increment_space, hf]
        rw [dif_pos hlt]
      rw [hv] at h
      cases h
    · have hv : w.increment_space inc cur = .ok none := by
        simp only [World.increment_space, hf]
        rw [dif_neg hlt]
      rw [hv] at h
      cases h

lemma dsm_arrive_error_msg {w1 : World} {t e : String}
    (h : w1.dsm_arrive t = .error e) :
    e = "model: unknown space" ∨
    e = "the specified frog is not at the top of the stack" ∨
    e = "a new frog cannot be added to the stack - it is already full" := by
  cases hf : w1.find_space t with
  | error e2 =>
    have hv : w1.dsm_arrive t = .error e2 := by
      simp only [World.dsm_arrive, hf]
    rw [hv] at h
    have he := Except.error.inj h
    exact Or.inl (he ▸ find_space_error_msg hf)
  | ok tgt =>
    cases hl : tgt.lowest_empty_layer with
    | none =>
      have hv : ∃ w2, w1.dsm_arrive t = .ok w2 := by
        simp only [World.dsm_arrive, hf, hl]
        exact ⟨_, rfl⟩
      obtain ⟨w2, hv⟩ := hv
      rw [hv] at h
      cases h
    | some l =>
      cases ha : tgt.add w1.frog.piece with
      | error e2 =>
        have hv : w1.dsm_arrive t = .error e2 := by
          simp only [World.dsm_arrive, hf, hl, ha]
        rw [hv] at h
        have he := Except.error.inj h
        exact Or.inr (Or.inr (he ▸ add_error_msg ha))
      | ok p =>
        obtain ⟨tgt2, l2⟩ := p
        have hv : ∃ w2, w1.dsm_arrive t = .ok w2 := by
          simp only [World.dsm_arrive, hf, hl, ha]
          exact ⟨_, rfl⟩
        obtain ⟨w2, hv⟩ := hv
        rw [hv] at h
        cases h

lemma direct_space_move_error_msg {w : World} {t e : String}
    (h : w.direct_space_move t = .error e) :
    e = "model: unknown space" ∨
    e = "the specified frog is not at the top of the stack" ∨
    e = "a new frog cannot be added to the stack - it is already full" := by
  cases hf : w.find_space w.frog.space with
  | error e2 =>
    have hv : w.direct_space_move t = .error e2 := by
      simp only [World.direct_space_move, hf]
    rw [hv] at h
    have he := Except.error.inj h
    exact Or.inl (he ▸ find_space_error_msg hf)
  | ok cur =>
    by_cases hl : w.frog.layer < cur.capacity
    · cases hpv : cur.pop_verify w.frog.id with
      | error e2 =>
        have hv : w.direct_space_move t = .error e2 := by
          simp only [World.direct_space_move, hf]
          rw [if_pos hl, hpv]
          simp only [Except.map]
        rw [hv] at h
        have he := Except.error.inj h
        exact Or.inr (Or.inl (he ▸ pop_verify_error_msg hpv))
      | ok cur2 =>
        have hv : w.direct_space_move t = (w.set_space cur2).dsm_arrive t := by
          simp only [World.direct_space_move, hf]
          rw [if_pos hl, hpv]
          simp only [Except.map]
        rw [hv] at h
        exact dsm_arrive_error_msg h
    · have hv : w.direct_space_move t = w.dsm_arrive t := by
        simp only [World.direct_space_move, hf]
        rw [if_neg hl]
      rw [hv] at h
      exact dsm_arrive_error_msg h

/-- C10: for an idle frog on its path, `stepwise_move n` (n at least 1)
raises the out-of-bounds `ValueError` exactly when no space lies n
positions forward on the path; when it raises, no movement is initiated —
coordinates, targets, velocities, layer, the space stacks, and the
stepwise flag are unchanged (only `_target_space` has been overwritten
with None before the raise) and `is_moving` stays false. -/
theorem stepwise_move_oob_spec (w : World) (n : Nat) (i : Nat)
    (hn : 1 ≤ n)
    (hx : w.frog.x = w.frog.x_target) (hy : w.frog.y = w.frog.y_target)
    (hidx : w.path.indexOf? w.frog.space = some i) :
    ((∃ w2, w.stepwise_move n =
        .error ("the provided spaces_to_move value would bring the frog out of bounds",
          w2)) ↔
      w.path.length ≤ i + n) ∧
    (∀ w2, w.stepwise_move n =
        .error ("the provided spaces_to_move value would bring the frog out of bounds",
          w2) →
      (w2 = {w with frog := {w.frog with target_space := none}} ∧
        w2.frog.x = w.frog.x ∧ w2.frog.y = w.frog.y ∧
        w2.frog.x_target = w.frog.x_target ∧
        w2.frog.y_target = w.frog.y_target ∧
        w2.frog.x_move = w.frog.x_move ∧ w2.frog.y_move = w.frog.y_move ∧
        w2.frog.layer = w.frog.layer ∧ w2.spaces = w.spaces ∧
        w2.frog.stepwise_movement = w.frog.stepwise_movement ∧
        w2.frog.is_moving = false)) := by
  by_cases hcase : i + n < w.path.length
  · have hinc : w.increment_space n w.frog.space =
        .ok (some (w.path.get ⟨i + n, hcase⟩)) := by
      simp only [World.increment_space, hidx]
      rw [dif_pos hcase]
    have hmain : ∀ w2, w.stepwise_move n ≠
        .error ("the provided spaces_to_move value would bring the frog out of bounds",
          w2) := by
      intro w2 hcontra
      simp only [World.stepwise_move, hinc] at hcontra
      split at hcontra
      · next e he =>
        injection hcontra with hp
        injection hp with he2 _
        have := increment_space_error_msg he
        rw [he2] at this
        exact absurd this (by decide)
      · injection hcontra with hp
        injection hp with he2 _
        exact absurd he2 (by decide)
      · next nxt hnxt =>
        split at hcontra
        · next e he =>
          injection hcontra with hp
          injection hp with he2 _
          rcases direct_space_move_error_msg he with h3 | h3 | h3 <;>
            (rw [he2] at h3; exact absurd h3 (by decide))
        · cases hcontra
    constructor
    · constructor
      · rintro ⟨w2, hw2⟩
        exact absurd hw2 (hmain w2)
      · intro hge
        omega
    · intro w2 hw2
      exact absurd hw2 (hmain w2)
  · have hinc : w.increment_space n w.frog.space = .ok none := by
      simp only [World.increment_space, hidx]
      rw [dif_neg hcase]
    have hv : w.stepwise_move n =
        .error ("the provided spaces_to_move value would bring the frog out of bounds",
          {w with frog := {w.frog with target_space := none}}) := by
      simp only [World.stepwise_move, hinc]
    constructor
    · exact ⟨fun _ => by omega, fun _ => ⟨_, hv⟩⟩
    · intro w2 hw2
      rw [hv] at hw2
      injection hw2 with hp
      injection hp with _ hw
      subst hw
      refine ⟨rfl, rfl, rfl, rfl, rfl, rfl, rfl, rfl, rfl, rfl, ?_⟩
      simp [Frog.is_moving, hx, hy]

/-- Witness for `stepwise_move_oob_spec`: an idle frog one space from the
end of a two-space path cannot move 5 spaces; the raise leaves the world
unchanged except for `_target_space`. -/
theorem stepwise_move_oob_spec_witness :
    (World.mk
      [Space.mk "a" 5 0 0 [⟨1, "red", 0⟩], Space.mk "b" 5 50 0 []]
      (Frog.mk 1 "red" 0 0 0 0 0 0 0 "a" (some "a") false false 0 0 0)
      ["a", "b"]).stepwise_move 5 =
      .error ("the provided spaces_to_move value would bring the frog out of bounds",
        {(World.mk
          [Space.mk "a" 5 0 0 [⟨1, "red", 0⟩], Space.mk "b" 5 50 0 []]
          (Frog.mk 1 "red" 0 0 0 0 0 0 0 "a" (some "a") false false 0 0 0)
          ["a", "b"]) with frog := (Frog.mk 1 "red" 0 0 0 0 0 0 0 "a"
            none false false 0 0 0)}) := by
  have h := (stepwise_move_oob_spec (World.mk
      [Space.mk "a" 5 0 0 [⟨1, "red", 0⟩], Space.mk "b" 5 50 0 []]
      (Frog.mk 1 "red" 0 0 0 0 0 0 0 "a" (some "a") false false 0 0 0)
      ["a", "b"]) 5 0 (by decide) rfl rfl (by decide)).1.mpr (by decide)
  obtain ⟨w2, hw2⟩ := h
  have h2 := (stepwise_move_oob_spec (World.mk
      [Space.mk "a" 5 0 0 [⟨1, "red", 0⟩], Space.mk "b" 5 50 0 []]
      (Frog.mk 1 "red" 0 0 0 0 0 0 0 "a" (some "a") false false 0 0 0)
      ["a", "b"]) 5 0 (by decide) rfl rfl (by decide)).2 w2 hw2
  rw [hw2, h2.1]

lemma ratSqrt_pixels_sq : ratSqrt (PIXELS_PER_MS * PIXELS_PER_MS) = PIXELS_PER_MS := by
  have h : (PIXELS_PER_MS * PIXELS_PER_MS : ℚ) = ((1 : ℤ) : ℚ) / ((25 : ℤ) : ℚ) := by
    norm_num [PIXELS_PER_MS]
  have hnum : (((1 : ℤ) : ℚ) / ((25 : ℤ) : ℚ)).num = 1 :=
    Rat.num_div_eq_of_coprime (by norm_num) (by norm_num)
  have hden : ((((1 : ℤ) : ℚ) / ((25 : ℤ) : ℚ)).den : ℤ) = 25 :=
    Rat.den_div_eq_of_coprime (by norm_num) (by norm_num)
  have hden2 : (((1 : ℤ) : ℚ) / ((25 : ℤ) : ℚ)).den = 25 := by exact_mod_cast hden
  rw [ratSqrt, h, hnum, hden2]
  rw [show ((1 : ℤ).toNat = 1) from rfl, show (25 : ℕ) = 5 * 5 from rfl,
    Nat.sqrt_eq, Nat.sqrt_one]
  norm_num [PIXELS_PER_MS]

lemma dcm_start (f : Frog) (hx : f.x = 0) (hy : f.y = 0) :
    f.direct_coords_move 100 0 =
      {f with x_target := 100, y_target := 0, x_move := PIXELS_PER_MS,
              y_move := 0} := by
  simp only [Frog.direct_coords_move, hx, hy]
  norm_num
  exact ratSqrt_pixels_sq

lemma update_coords_step (w : World) (dt : ℚ)
    (hdt : 0 ≤ dt)
    (hsh : w.frog.is_being_sent_home = false)
    (hsw : w.frog.stepwise_movement = false)
    (hxt : w.frog.x_target = 100) (hyt : w.frog.y_target = 0)
    (hxm : w.frog.x_move = PIXELS_PER_MS) (hym : w.frog.y_move = 0)
    (hy : w.frog.y = 0) :
    w.update_coords dt =
      .ok {w with frog := {w.frog with
        x := min 100 (w.frog.x + PIXELS_PER_MS * dt), y := 0}} := by
  have hmul : 0 ≤ PIXELS_PER_MS * dt :=
    mul_nonneg (by norm_num [PIXELS_PER_MS]) hdt
  have hyr : clamp_axis w.frog.y w.frog.y_move w.frog.y_target dt = (0, true) := by
    simp only [clamp_axis, hym, hyt, hy]
    norm_num
  by_cases harr : (100 : ℚ) ≤ w.frog.x + PIXELS_PER_MS * dt
  · have hxr : clamp_axis w.frog.x w.frog.x_move w.frog.x_target dt =
        (100, true) := by
      simp only [clamp_axis, hxm, hxt]
      rw [if_pos hmul, if_pos harr]
    have hmin : min 100 (w.frog.x + PIXELS_PER_MS * dt) = 100 :=
      min_eq_left harr
    simp only [World.update_coords, hxr, hyr, hmin, Bool.and_self, if_true]
    simp only [hsh, hsw, Bool.false_eq_true, if_false]
  · have hxr : clamp_axis w.frog.x w.frog.x_move w.frog.x_target dt =
        (w.frog.x + PIXELS_PER_MS * dt, false) := by
      simp only [clamp_axis, hxm, hxt]
      rw [if_pos hmul, if_neg harr]
    have hmin : min 100 (w.frog.x + PIXELS_PER_MS * dt) =
        w.frog.x + PIXELS_PER_MS * dt :=
      min_eq_right (le_of_lt (lt_of_not_ge harr))
    simp only [World.update_coords, hxr, hyr, hmin, Bool.false_and,
      Bool.false_eq_true, if_false]

lemma min_hundred_absorb (x a b : ℚ) (hb : 0 ≤ b) :
    min 100 (min 100 (x + a) + b) = min 100 (x + (a + b)) := by
  rcases le_total 100 (x + a) with h | h
  · rw [min_eq_left h, min_eq_left (by linarith), min_eq_left (by linarith)]
  · rw [min_eq_right h, ← add_assoc]

lemma run_updates_formula (dts : List ℚ) :
    ∀ (w : World), (∀ d ∈ dts, 0 ≤ d) →
    w.frog.is_being_sent_home = false →
    w.frog.stepwise_movement = false →
    w.frog.x_target = 100 → w.frog.y_target = 0 →
    w.frog.x_move = PIXELS_PER_MS → w.frog.y_move = 0 →
    w.frog.y = 0 → w.frog.x ≤ 100 →
    w.run_updates dts =
      .ok {w with frog := {w.frog with
        x := min 100 (w.frog.x + PIXELS_PER_MS * dts.sum), y := 0}} := by
  induction dts with
  | nil =>
    intro w _ _ _ _ _ _ _ hy hx1
    simp only [World.run_updates, List.sum_nil]
    rw [show min 100 (w.frog.x + PIXELS_PER_MS * 0) = w.frog.x by
      rw [mul_zero, add_zero]; exact min_eq_right hx1, ← hy]
  | cons d rest ih =>
    intro w hd hsh hsw hxt hyt hxm hym hy hx1
    have hstep := update_coords_step w d (hd d (List.mem_cons_self d rest))
      hsh hsw hxt hyt hxm hym hy
    simp only [World.run_updates, hstep]
    have hsum : (0 : ℚ) ≤ rest.sum :=
      List.sum_nonneg (fun d2 hd2 => hd d2 (List.mem_cons_of_mem d hd2))
    rw [ih {w with frog := {w.frog with
        x := min 100 (w.frog.x + PIXELS_PER_MS * d), y := 0}}
      (fun d2 hd2 => hd d2 (List.mem_cons_of_mem d hd2))
      hsh hsw hxt hyt hxm hym rfl (min_le_left _ _)]
    rw [List.sum_cons]
    rw [min_hundred_absorb w.frog.x (PIXELS_PER_MS * d) (PIXELS_PER_MS * rest.sum)
      (mul_nonneg (by norm_num [PIXELS_PER_MS]) hsum)]
    rw [mul_add]

/-- C6: a frog starting at (0,0) and sent toward (100,0) by
`direct_coords_move` advances under any nonnegative `dt` sequence at speed
`PIXELS_PER_MS` on the x axis without ever overshooting on either axis,
and once the accumulated time reaches `100 / PIXELS_PER_MS` (= 500 ms,
the ceiling of itself since it is an integer) sits exactly at (100,0)
with `is_moving` false. -/
theorem frog_interpolation_spec (w : World) (dts : List ℚ)
    (hx : w.frog.x = 0) (hy : w.frog.y = 0)
    (hsh : w.frog.is_being_sent_home = false)
    (hsw : w.frog.stepwise_movement = false)
    (hd : ∀ d ∈ dts, 0 ≤ d) :
    ∃ w2, ({w with frog := w.frog.direct_coords_move 100 0}).run_updates dts =
        .ok w2 ∧
      0 ≤ w2.frog.x ∧ w2.frog.x ≤ 100 ∧ w2.frog.y = 0 ∧
      w2.frog.x_target = 100 ∧ w2.frog.y_target = 0 ∧
      (100 / PIXELS_PER_MS ≤ dts.sum →
        w2.frog.x = 100 ∧ w2.frog.y = 0 ∧ w2.frog.is_moving = false) := by
  have hdcm := dcm_start w.frog hx hy
  rw [hdcm]
  have hsum : (0 : ℚ) ≤ dts.sum := List.sum_nonneg hd
  have hres := run_updates_formula dts
    {w with frog :=
      {w.frog with x_target := 100, y_target := 0, x_move := PIXELS_PER_MS, y_move := 0}}
    hd hsh hsw rfl rfl rfl rfl hy (by rw [hx]; norm_num)
  refine ⟨_, hres, ?_, ?_, rfl, rfl, rfl, ?_⟩
  · show (0 : ℚ) ≤ min 100 (w.frog.x + PIXELS_PER_MS * dts.sum)
    rw [hx]
    have : (0 : ℚ) ≤ PIXELS_PER_MS * dts.sum :=
      mul_nonneg (by norm_num [PIXELS_PER_MS]) hsum
    simp only [zero_add]
    exact le_min (by norm_num) this
  · show min 100 (w.frog.x + PIXELS_PER_MS * dts.sum) ≤ (100 : ℚ)
    exact min_le_left _ _
  · intro hbig
    have hbig2 : (100 : ℚ) ≤ w.frog.x + PIXELS_PER_MS * dts.sum := by
      rw [hx, zero_add]
      have h500 : (100 : ℚ) / PIXELS_PER_MS = 500 := by
        norm_num [PIXELS_PER_MS]
      rw [h500] at hbig
      calc (100 : ℚ) = PIXELS_PER_MS * 500 := by norm_num [PIXELS_PER_MS]
        _ ≤ PIXELS_PER_MS * dts.sum := by
          apply mul_le_mul_of_nonneg_left hbig
          norm_num [PIXELS_PER_MS]
    have hxmin : min (100 : ℚ) (w.frog.x + PIXELS_PER_MS * dts.sum) = 100 :=
      min_eq_left hbig2
    refine ⟨hxmin, rfl, ?_⟩
    simp [Frog.is_moving, hxmin]

/-- Witness for `frog_interpolation_spec`: a single 600 ms tick carries the
frog from (0,0) exactly onto (100,0). -/
theorem frog_interpolation_spec_witness :
    ∃ w2, ({(World.mk []
        (Frog.mk 7 "red" 0 0 0 0 0 0 0 "sw" (some "sw") false false 0 0 0)
        []) with
        frog := (Frog.mk 7 "red" 0 0 0 0 0 0 0 "sw" (some "sw") false false
          0 0 0).direct_coords_move 100 0}).run_updates [600] = .ok w2 ∧
      0 ≤ w2.frog.x ∧ w2.frog.x ≤ 100 ∧ w2.frog.y = 0 ∧
      w2.frog.x_target = 100 ∧ w2.frog.y_target = 0 ∧
      (100 / PIXELS_PER_MS ≤ ([600] : List ℚ).sum →
        w2.frog.x = 100 ∧ w2.frog.y = 0 ∧ w2.frog.is_moving = false) :=
  frog_interpolation_spec (World.mk []
      (Frog.mk 7 "red" 0 0 0 0 0 0 0 "sw" (some "sw") false false 0 0 0) [])
    [600] rfl rfl rfl rfl
    (by intro d hdm; rw [List.mem_singleton] at hdm; subst hdm; norm_num)
